import Mathlib

/-!
A shallow embedding of the Twizzler raw queue (`twizzler-queue-raw/src/lib.rs`),
an MPSC lock-free bounded queue, together with proofs about its sequential
(single-threaded) behaviour.

Machine integers are modelled as `Nat` with explicit reductions modulo `2^32`
(`0x100000000`) and `2^64` (`0x10000000000000000`) exactly where the Rust code
wraps.  The u64 subtraction in `is_full` is modelled as wrapping subtraction
`(a + 2^64 - b) % 2^64`, the behaviour of `u64::sub` under release-mode
two's-complement wrapping.

Blocking is modelled explicitly: in a single-threaded execution no other
thread can change `tail` (for a blocked submitter) or `bell` (for a blocked
consumer), so the retry loops in `reserve_slot` and `get_next_ready` are
decided by their first predicate check; a state in which the code would spin
and then park on the wait callback forever is returned as a `blocked` result.
-/

namespace TwizzlerQueueRaw

/-- `QueueEntry<T>`: `cmd_slot` (u32) is the per-slot turn/handshake word,
`info` (u32) an opaque user tag, `data` the payload. -/
structure QueueEntry (T : Type) where
  cmd_slot : Nat
  info : Nat
  data : T

/-- `QueueEntry::new(info, item)`: `cmd_slot` starts at 0. -/
def QueueEntry.new {T : Type} (info : Nat) (item : T) : QueueEntry T :=
  { cmd_slot := 0, info := info, data := item }

/-- `QueueEntry::default()` (from `#[derive(Default)]`), used for the
zero-initialised buffer: all-zero control word and tag, default payload. -/
def QueueEntry.defaultEntry {T : Type} (d : T) : QueueEntry T :=
  { cmd_slot := 0, info := 0, data := d }

/-- `RawQueueHdr`: the queue header.  `head`/`waiters` are u32 atomics,
`bell`/`tail` are u64 atomics; all are represented by their current value. -/
structure RawQueueHdr where
  l2len : Nat
  stride : Nat
  head : Nat
  waiters : Nat
  bell : Nat
  tail : Nat

/-- `RawQueueHdr::new(l2len, stride)`: zero-initialised counters. -/
def RawQueueHdr.new (l2len stride : Nat) : RawQueueHdr :=
  { l2len := l2len, stride := stride, head := 0, waiters := 0, bell := 0, tail := 0 }

/-- `fn len(&self) -> usize { 1 << self.l2len }` -/
def RawQueueHdr.len (q : RawQueueHdr) : Nat :=
  1 <<< q.l2len

/-- `fn is_full(&self, h: u32, t: u64) -> bool`:
`(h & 0x7fffffff) as u64 - (t & 0x7fffffff) >= self.len() as u64`, with the
u64 subtraction modelled as wrapping subtraction modulo `2^64`. -/
def RawQueueHdr.is_full (q : RawQueueHdr) (h t : Nat) : Bool :=
  decide (q.len ≤ ((h &&& 0x7fffffff) + 0x10000000000000000 - (t &&& 0x7fffffff))
    % 0x10000000000000000)

/-- `fn is_empty(&self, bell: u64, tail: u64) -> bool`:
`(bell & 0x7fffffff) == (tail & 0x7fffffff)`. -/
def RawQueueHdr.is_empty (_q : RawQueueHdr) (bell tail : Nat) : Bool :=
  decide ((bell &&& 0x7fffffff) = (tail &&& 0x7fffffff))

/-- `fn is_turn<T>(&self, t: u64, item: *const QueueEntry<T>) -> bool`:
`let turn = (t / len) % 2; let val = item.cmd_slot >> 31; (val == 0) == (turn == 1)`. -/
def RawQueueHdr.is_turn {T : Type} (q : RawQueueHdr) (t : Nat) (item : QueueEntry T) : Bool :=
  ((item.cmd_slot >>> 31) == 0) == (((t / q.len) % 2) == 1)

/-- `fn get_turn(&self, h: u32) -> bool`: `(h / self.len() as u32) % 2 == 0`.
The `as u32` cast truncates the usize length modulo `2^32`. -/
def RawQueueHdr.get_turn (q : RawQueueHdr) (h : Nat) : Bool :=
  decide ((h / (q.len % 0x100000000)) % 2 = 0)

/-- `fn consumer_set_waiting(&self, waiting: bool)`: `tail.fetch_or(1 << 31)`
resp. `tail.fetch_and(!(1 << 31))` on the u64 tail word. -/
def RawQueueHdr.consumer_set_waiting (q : RawQueueHdr) (waiting : Bool) : RawQueueHdr :=
  if waiting then { q with tail := q.tail ||| (1 <<< 31) }
  else { q with tail := q.tail &&& 0xffffffff7fffffff }


/-- `SubmissionError`. -/
inductive SubmissionError where
  | Unknown
  | WouldBlock
deriving DecidableEq

/-- `ReceiveError`. -/
inductive ReceiveError where
  | Unknown
  | WouldBlock
deriving DecidableEq

/-- Result of `reserve_slot` with a typed error. -/
inductive ReserveResultE where
  | ok (h : Nat) (hdr : RawQueueHdr)
  | err (e : SubmissionError) (hdr : RawQueueHdr)
  | blocked (hdr : RawQueueHdr)

/-- `fn reserve_slot(&self, flags, wait) -> Result<u32, SubmissionError>`,
sequential semantics.  The fetch-add on `head` happens first (wrapping u32).
In a single-threaded run `tail` cannot change inside the retry loop, so the
first `is_full` check decides it: if not full the loop breaks immediately
(no waiter was registered), returning `h & 0x7fffffff`; if full and
`NON_BLOCK` is set the error path returns with `head` already incremented;
otherwise the code spins 1000 times, increments `waiters` and parks on
`wait(&self.tail, t)`, never to be woken. -/
def RawQueueHdr.reserve_slot (q : RawQueueHdr) (non_block : Bool) : ReserveResultE :=
  if !(q.is_full q.head q.tail) then
    ReserveResultE.ok (q.head &&& 0x7fffffff) { q with head := (q.head + 1) % 0x100000000 }
  else if non_block then
    ReserveResultE.err SubmissionError.WouldBlock { q with head := (q.head + 1) % 0x100000000 }
  else
    ReserveResultE.blocked
      { q with
          head := (q.head + 1) % 0x100000000
          waiters := (q.waiters + 1) % 0x100000000 }

/-- `fn ring<R>(&self, ring: R)`: `bell.fetch_add(1)` (wrapping u64); the
conditional wake callback touches no queue state. -/
def RawQueueHdr.ring (q : RawQueueHdr) : RawQueueHdr :=
  { q with bell := (q.bell + 1) % 0x10000000000000000 }

/-- Result of `get_next_ready`: `ok` carries the masked tail position and the
(unchanged) header; `err` is the non-blocking error path; `blocked` marks a
state in which the sequential execution would park on `wait(&bell, b)`
forever (after setting the consumer-waiting bit). -/
inductive NextReadyResult where
  | ok (t : Nat) (hdr : RawQueueHdr)
  | err (e : ReceiveError) (hdr : RawQueueHdr)
  | blocked (hdr : RawQueueHdr)

/-- `fn get_next_ready<W, T>(&self, wait, flags, raw_buf) -> Result<u64, ReceiveError>`,
sequential semantics.  `t = tail & 0x7fffffff` is read once; the inspected
slot is `raw_buf[(t as usize) & (len - 1)]`.  In a single-threaded run `bell`
and the slot cannot change inside the loop, so the first check decides it.
On the immediate-success path `attempts` is still 1000, so the waiting bit is
neither set nor cleared. -/
def RawQueueHdr.get_next_ready {T : Type} (q : RawQueueHdr) (non_block : Bool)
    (raw_buf : Nat → QueueEntry T) : NextReadyResult :=
  if !(q.is_empty q.bell (q.tail &&& 0x7fffffff)) &&
      q.is_turn (q.tail &&& 0x7fffffff)
        (raw_buf ((q.tail &&& 0x7fffffff) &&& (q.len - 1))) then
    NextReadyResult.ok (q.tail &&& 0x7fffffff) q
  else if non_block then
    NextReadyResult.err ReceiveError.WouldBlock q
  else
    NextReadyResult.blocked (q.consumer_set_waiting true)

/-- `fn advance_tail<R>(&self, ring: R)`: load `tail`, store
`(t + 1) & 0x7fffffff` (the u64 addition wraps modulo `2^64`); the
conditional wake callback touches no queue state. -/
def RawQueueHdr.advance_tail (q : RawQueueHdr) : RawQueueHdr :=
  { q with tail := ((q.tail + 1) % 0x10000000000000000) &&& 0x7fffffff }

/-- `RawQueue<'a, T>`: a header plus a circular buffer.  The buffer is a
total map from slot index to entry; the code only ever indexes it through
`off & (len - 1)`. -/
structure RawQueue (T : Type) where
  hdr : RawQueueHdr
  buf : Nat → QueueEntry T

/-- `RawQueue::new(hdr, buf)`. -/
def RawQueue.new {T : Type} (hdr : RawQueueHdr) (buf : Nat → QueueEntry T) : RawQueue T :=
  { hdr := hdr, buf := buf }

/-- A freshly created queue as built in the tests: `RawQueueHdr::new(l2len, stride)`
and a zero-initialised buffer of default entries. -/
def freshQueue (T : Type) (l2len stride : Nat) (d : T) : RawQueue T :=
  RawQueue.new (RawQueueHdr.new l2len stride) (fun _ => QueueEntry.defaultEntry d)

/-- Result of `submit`, carrying the post-state in every case. -/
inductive SubmitResult (T : Type) where
  | ok (q : RawQueue T)
  | err (e : SubmissionError) (q : RawQueue T)
  | blocked (q : RawQueue T)

/-- Result of `receive`, carrying the post-state in every case. -/
inductive ReceiveResult (T : Type) where
  | ok (item : QueueEntry T) (q : RawQueue T)
  | err (e : ReceiveError) (q : RawQueue T)
  | blocked (q : RawQueue T)

/-- `RawQueue::submit(item, wait, ring, flags)`, sequential semantics.
After `reserve_slot` returns `h`, the code writes the whole entry into
buffer slot `h & (len - 1)` (`*buf_item = item`), then overwrites its
`cmd_slot` with `h | if turn { 1 << 31 } else { 0 }` where
`turn = get_turn(h)`; finally `ring` bumps the doorbell. -/
def RawQueue.submit {T : Type} (q : RawQueue T) (item : QueueEntry T) (non_block : Bool) :
    SubmitResult T :=
  match q.hdr.reserve_slot non_block with
  | ReserveResultE.err e hdr => SubmitResult.err e { q with hdr := hdr }
  | ReserveResultE.blocked hdr => SubmitResult.blocked { q with hdr := hdr }
  | ReserveResultE.ok h hdr =>
    SubmitResult.ok
      { hdr := hdr.ring
        buf := fun j => if j = (h &&& (hdr.len - 1))
          then { item with cmd_slot := h ||| (if hdr.get_turn h then 1 <<< 31 else 0) }
          else q.buf j }

/-- `RawQueue::receive(wait, ring, flags)`, sequential semantics.  On success
the entry at `t & (len - 1)` is copied out by value and `advance_tail` bumps
the tail; the buffer is not written. -/
def RawQueue.receive {T : Type} (q : RawQueue T) (non_block : Bool) : ReceiveResult T :=
  match q.hdr.get_next_ready non_block q.buf with
  | NextReadyResult.err e hdr => ReceiveResult.err e { q with hdr := hdr }
  | NextReadyResult.blocked hdr => ReceiveResult.blocked { q with hdr := hdr }
  | NextReadyResult.ok t hdr =>
    ReceiveResult.ok (q.buf (t &&& (hdr.len - 1))) { q with hdr := hdr.advance_tail }

/-! ## Basic arithmetic facts about the embedding -/

theorem len_eq_two_pow (q : RawQueueHdr) : q.len = 2 ^ q.l2len := by
  simp [RawQueueHdr.len, Nat.shiftLeft_eq]

theorem len_pos (q : RawQueueHdr) : 0 < q.len := by
  rw [len_eq_two_pow]; exact Nat.pos_pow_of_pos _ (by norm_num)

theorem and_mask31 (x : Nat) : x &&& 0x7fffffff = x % 0x80000000 := by
  have h : (0x7fffffff : Nat) = 2 ^ 31 - 1 := by norm_num
  have h2 : (0x80000000 : Nat) = 2 ^ 31 := by norm_num
  rw [h, h2, Nat.and_pow_two_sub_one_eq_mod]

theorem and_mask31_lt (x : Nat) : x &&& 0x7fffffff < 0x80000000 := by
  rw [and_mask31]; exact Nat.mod_lt _ (by norm_num)

theorem and_mask31_of_lt {x : Nat} (h : x < 0x80000000) : x &&& 0x7fffffff = x := by
  rw [and_mask31]; exact Nat.mod_eq_of_lt h

theorem and_len_sub_one (q : RawQueueHdr) (x : Nat) :
    x &&& (q.len - 1) = x % 2 ^ q.l2len := by
  rw [len_eq_two_pow, Nat.and_pow_two_sub_one_eq_mod]

theorem len_mod_u32 (q : RawQueueHdr) (hl : q.l2len < 32) :
    q.len % 0x100000000 = q.len := by
  rw [len_eq_two_pow]
  exact Nat.mod_eq_of_lt (lt_of_lt_of_le (Nat.pow_lt_pow_right (by norm_num) hl) (by norm_num))

theorem or_two_pow_31 {a : Nat} (h : a < 0x80000000) : a ||| 1 <<< 31 = 0x80000000 + a := by
  have h2 : (0x80000000 : Nat) = 2 ^ 31 := by norm_num
  have hlt : a < 2 ^ 31 := h2 ▸ h
  have key := Nat.mul_add_lt_is_or (i := 31) (b := a) hlt 1
  simp only [Nat.mul_one] at key
  have h31 : (1 : Nat) <<< 31 = 2 ^ 31 := by simp [Nat.shiftLeft_eq]
  rw [h31, Nat.lor_comm, ← key, h2]

theorem stamp_shiftr {a : Nat} (h : a < 0x80000000) (c : Bool) :
    (a ||| (if c then 1 <<< 31 else 0)) >>> 31 = if c then 1 else 0 := by
  cases c with
  | false =>
    have key : (a ||| 0) >>> 31 = 0 := by
      rw [Nat.or_zero, Nat.shiftRight_eq_div_pow]
      exact Nat.div_eq_of_lt (by omega)
    simpa using key
  | true =>
    have key : (a ||| 1 <<< 31) >>> 31 = 1 := by
      rw [or_two_pow_31 h, Nat.shiftRight_eq_div_pow]
      omega
    simpa using key

/-! ## Characterisations of the branch outcomes -/

theorem reserve_slot_ok_inv (q : RawQueueHdr) (nb : Bool) (h : Nat) (hdr : RawQueueHdr)
    (hs : q.reserve_slot nb = ReserveResultE.ok h hdr) :
    h = q.head &&& 0x7fffffff ∧ hdr = { q with head := (q.head + 1) % 0x100000000 } ∧
    q.is_full q.head q.tail = false := by
  unfold RawQueueHdr.reserve_slot at hs
  split at hs
  · rename_i hc
    injection hs with h1 h2
    exact ⟨h1.symm, h2.symm, by simpa using hc⟩
  · split at hs <;> cases hs

theorem reserve_slot_err_inv (q : RawQueueHdr) (nb : Bool) (e : SubmissionError)
    (hdr : RawQueueHdr) (hs : q.reserve_slot nb = ReserveResultE.err e hdr) :
    e = SubmissionError.WouldBlock ∧
    hdr = { q with head := (q.head + 1) % 0x100000000 } ∧
    q.is_full q.head q.tail = true ∧ nb = true := by
  unfold RawQueueHdr.reserve_slot at hs
  split at hs
  · cases hs
  · rename_i hc
    split at hs
    · rename_i hnb
      injection hs with h1 h2
      exact ⟨h1.symm, h2.symm, by simpa using hc, hnb⟩
    · cases hs

theorem get_next_ready_ok_inv {T : Type} (q : RawQueueHdr) (nb : Bool)
    (raw_buf : Nat → QueueEntry T) (t : Nat) (hdr : RawQueueHdr)
    (hs : q.get_next_ready nb raw_buf = NextReadyResult.ok t hdr) :
    t = q.tail &&& 0x7fffffff ∧ hdr = q := by
  unfold RawQueueHdr.get_next_ready at hs
  split at hs
  · injection hs with h1 h2
    exact ⟨h1.symm, h2.symm⟩
  · split at hs <;> cases hs

theorem submit_ok_state (T : Type) (q : RawQueue T) (item : QueueEntry T) (nb : Bool)
    (hnf : q.hdr.is_full q.hdr.head q.hdr.tail = false) :
    q.submit item nb = SubmitResult.ok
      { hdr := { q.hdr with
            head := (q.hdr.head + 1) % 0x100000000
            bell := (q.hdr.bell + 1) % 0x10000000000000000 }
        buf := fun j =>
          if j = ((q.hdr.head &&& 0x7fffffff) &&& (q.hdr.len - 1))
          then { item with cmd_slot := (q.hdr.head &&& 0x7fffffff) |||
              (if q.hdr.get_turn (q.hdr.head &&& 0x7fffffff) then 1 <<< 31 else 0) }
          else q.buf j } := by
  unfold RawQueue.submit RawQueueHdr.reserve_slot
  rw [hnf]
  rfl

theorem submit_full_nonblock (T : Type) (q : RawQueue T) (item : QueueEntry T)
    (hf : q.hdr.is_full q.hdr.head q.hdr.tail = true) :
    q.submit item true = SubmitResult.err SubmissionError.WouldBlock
      { q with hdr := { q.hdr with head := (q.hdr.head + 1) % 0x100000000 } } := by
  unfold RawQueue.submit RawQueueHdr.reserve_slot
  rw [hf]
  rfl

theorem receive_ok_state (T : Type) (q : RawQueue T) (nb : Bool)
    (hne : q.hdr.is_empty q.hdr.bell (q.hdr.tail &&& 0x7fffffff) = false)
    (ht : q.hdr.is_turn (q.hdr.tail &&& 0x7fffffff)
      (q.buf ((q.hdr.tail &&& 0x7fffffff) &&& (q.hdr.len - 1))) = true) :
    q.receive nb = ReceiveResult.ok
      (q.buf ((q.hdr.tail &&& 0x7fffffff) &&& (q.hdr.len - 1)))
      { q with hdr := { q.hdr with
          tail := ((q.hdr.tail + 1) % 0x10000000000000000) &&& 0x7fffffff } } := by
  unfold RawQueue.receive RawQueueHdr.get_next_ready
  rw [hne, ht]
  rfl

/-! ## Claim C3: the consumer readiness predicate -/

/-- Ready predicate transcribed from the spec's words (§4.1):
`ready(t, slot) := ((slot.cmd_slot >> 31) == 0) == (((t / N) mod 2) == 1)`,
where `N` is the capacity. -/
def readySpec {T : Type} (N t : Nat) (slot : QueueEntry T) : Bool :=
  ((slot.cmd_slot >>> 31) == 0) == (((t / N) % 2) == 1)

/-- C3: for every tail position `t` and every slot value, the readiness test
`is_turn` used by `receive` (through `get_next_ready`) computes exactly the
spec predicate `ready(t, slot) = (((cmd_slot >> 31) == 0) == (((t / N) mod 2) == 1))`
with `N` the capacity. -/
theorem is_turn_eq_readySpec (T : Type) (q : RawQueueHdr) (t : Nat) (slot : QueueEntry T) :
    q.is_turn t slot = readySpec q.len t slot := rfl

/-! ## Claim C5: wrap-safety of the fullness test -/

/-- C5 counterexample: with capacity 4, at head counter `0x80000000` (its low
31 bits just wrapped to 0) and tail `0x7fffffff`, the queue invariant holds —
the modular 31-bit difference between head and tail is 1, below capacity —
yet the u64 subtraction in `is_full` underflows (the masked head is smaller
than the masked tail) and the test spuriously reports the queue full. -/
theorem is_full_wrap_counterexample :
    (RawQueueHdr.new 2 16).is_full 0x80000000 0x7fffffff = true ∧
    ((0x80000000 &&& 0x7fffffff) + 0x80000000 - (0x7fffffff &&& 0x7fffffff)) % 0x80000000
      = 1 ∧
    1 < (RawQueueHdr.new 2 16).len ∧
    (0x80000000 &&& 0x7fffffff) < (0x7fffffff &&& 0x7fffffff) := by
  refine ⟨by decide, by decide, by decide, by decide⟩

/-- C5 (amended): the fullness test is wrap-safe only while the masked tail
does not exceed the masked head (i.e. before the low 31 bits of the head
counter wrap past the tail's): under that condition the 64-bit subtraction
does not underflow and `is_full` is true exactly when
`(h & 0x7fffffff) - (t & 0x7fffffff)`, the number of reserved-but-unconsumed
positions, is at least the capacity. -/
theorem is_full_exact_of_no_wrap (q : RawQueueHdr) (h t : Nat)
    (hge : t &&& 0x7fffffff ≤ h &&& 0x7fffffff) :
    q.is_full h t
      = decide (q.len ≤ (h &&& 0x7fffffff) - (t &&& 0x7fffffff)) := by
  have ha := and_mask31_lt h
  have hb := and_mask31_lt t
  have key : ((h &&& 0x7fffffff) + 0x10000000000000000 - (t &&& 0x7fffffff))
      % 0x10000000000000000 = (h &&& 0x7fffffff) - (t &&& 0x7fffffff) := by
    omega
  unfold RawQueueHdr.is_full
  rw [key]

/-- Witness for C5 (amended) at `h = 5`, `t = 1`, capacity 4. -/
theorem is_full_exact_of_no_wrap_witness :
    ((1 : Nat) &&& 0x7fffffff ≤ 5 &&& 0x7fffffff) ∧
    (RawQueueHdr.new 2 16).is_full 5 1
      = decide ((RawQueueHdr.new 2 16).len ≤ (5 &&& 0x7fffffff) - (1 &&& 0x7fffffff)) :=
  ⟨by decide, is_full_exact_of_no_wrap (RawQueueHdr.new 2 16) 5 1 (by decide)⟩

/-! ## Claim C8: non-blocking receive on an empty queue -/

/-- C8: in every queue state whose doorbell and tail agree on their low 31
bits, `receive` with `NON_BLOCK` returns `Err(WouldBlock)` and leaves the
state unchanged. -/
theorem receive_nonblock_on_empty (T : Type) (q : RawQueue T)
    (he : q.hdr.bell &&& 0x7fffffff = q.hdr.tail &&& 0x7fffffff) :
    q.receive true = ReceiveResult.err ReceiveError.WouldBlock q := by
  have hemp : q.hdr.is_empty q.hdr.bell (q.hdr.tail &&& 0x7fffffff) = true := by
    unfold RawQueueHdr.is_empty
    rw [decide_eq_true_eq]
    rw [and_mask31, and_mask31] at he
    rw [and_mask31, and_mask31, and_mask31, Nat.mod_mod_of_dvd _ dvd_rfl]
    exact he
  unfold RawQueue.receive RawQueueHdr.get_next_ready
  rw [hemp]
  simp

/-- Witness for C8 on a fresh queue of capacity 4. -/
theorem receive_nonblock_on_empty_witness :
    ((freshQueue Nat 2 16 0).hdr.bell &&& 0x7fffffff
        = (freshQueue Nat 2 16 0).hdr.tail &&& 0x7fffffff) ∧
    (freshQueue Nat 2 16 0).receive true
      = ReceiveResult.err ReceiveError.WouldBlock (freshQueue Nat 2 16 0) :=
  ⟨rfl, receive_nonblock_on_empty Nat (freshQueue Nat 2 16 0) rfl⟩

/-! ## Claim C10: the consumer's non-blocking error path is effect-free -/

/-- C10: whenever `receive` with `NON_BLOCK` returns `Err(WouldBlock)`, no
shared state was modified: the resulting queue state (header — head, tail
including the waiting bit, bell, waiters — and the whole buffer) equals the
initial one. -/
theorem receive_nonblock_err_no_effect (T : Type) (q q' : RawQueue T)
    (hs : q.receive true = ReceiveResult.err ReceiveError.WouldBlock q') : q' = q := by
  unfold RawQueue.receive at hs
  cases hr : q.hdr.get_next_ready true q.buf with
  | ok t hdr => rw [hr] at hs; cases hs
  | blocked hdr => rw [hr] at hs; cases hs
  | err e hdr =>
    rw [hr] at hs
    injection hs with h1 h2
    have hinv : hdr = q.hdr := by
      unfold RawQueueHdr.get_next_ready at hr
      split at hr
      · cases hr
      · split at hr
        · injection hr with _ hh
          exact hh.symm
        · cases hr
    rw [← h2, hinv]

/-- Witness for C10: non-blocking receive on a fresh queue errors with the
state unchanged. -/
theorem receive_nonblock_err_no_effect_witness :
    ((freshQueue Nat 2 16 0).receive true
        = ReceiveResult.err ReceiveError.WouldBlock (freshQueue Nat 2 16 0)) ∧
    freshQueue Nat 2 16 0 = freshQueue Nat 2 16 0 :=
  ⟨rfl, receive_nonblock_err_no_effect Nat (freshQueue Nat 2 16 0) (freshQueue Nat 2 16 0) rfl⟩

/-! ## Claim C6: the submit NON_BLOCK error path leaks its reservation -/

/-- C6: whenever `submit` with `NON_BLOCK` returns `Err(WouldBlock)`, the
head counter has nevertheless been incremented by one (wrapping u32): the
fetch-add reservation precedes the fullness check and is not rewound on the
error path, while tail, bell, waiters and the buffer are untouched, so the
reserved slot is abandoned. -/
theorem submit_nonblock_err_head_incremented (T : Type) (q q' : RawQueue T)
    (item : QueueEntry T)
    (hs : q.submit item true = SubmitResult.err SubmissionError.WouldBlock q') :
    q'.hdr.head = (q.hdr.head + 1) % 0x100000000 ∧
    q'.hdr.tail = q.hdr.tail ∧ q'.hdr.bell = q.hdr.bell ∧
    q'.hdr.waiters = q.hdr.waiters ∧ q'.buf = q.buf := by
  unfold RawQueue.submit at hs
  cases hr : q.hdr.reserve_slot true with
  | ok h hdr => rw [hr] at hs; cases hs
  | blocked hdr => rw [hr] at hs; cases hs
  | err e hdr =>
    rw [hr] at hs
    injection hs with h1 h2
    obtain ⟨-, hhdr, -, -⟩ := reserve_slot_err_inv q.hdr true e hdr hr
    subst hhdr
    rw [← h2]
    exact ⟨rfl, rfl, rfl, rfl, rfl⟩

/-- A queue of capacity 4 that is full (head 4, tail 0, bell 4). -/
def c6Queue : RawQueue Nat :=
  RawQueue.new ⟨2, 16, 4, 0, 4, 0⟩ (fun _ => QueueEntry.defaultEntry 0)

/-- The state after a non-blocking submit to the full queue `c6Queue`. -/
def c6After : RawQueue Nat :=
  match c6Queue.submit (QueueEntry.new 1 7) true with
  | SubmitResult.ok q => q
  | SubmitResult.err _ q => q
  | SubmitResult.blocked q => q

/-- Witness for C6: the non-blocking submit on the full `c6Queue` errors with
`WouldBlock` and leaves the head incremented. -/
theorem submit_nonblock_err_head_incremented_witness :
    (c6Queue.submit (QueueEntry.new 1 7) true
        = SubmitResult.err SubmissionError.WouldBlock c6After) ∧
    (c6After.hdr.head = (c6Queue.hdr.head + 1) % 0x100000000 ∧
      c6After.hdr.tail = c6Queue.hdr.tail ∧ c6After.hdr.bell = c6Queue.hdr.bell ∧
      c6After.hdr.waiters = c6Queue.hdr.waiters ∧ c6After.buf = c6Queue.buf) :=
  ⟨rfl, submit_nonblock_err_head_incremented Nat c6Queue c6After (QueueEntry.new 1 7) rfl⟩

/-! ## Claim C2: the value stamped into the slot's control word -/

/-- The state after one submit on a fresh queue of capacity 4. -/
def c2After : RawQueue Nat :=
  match (freshQueue Nat 2 16 0).submit (QueueEntry.new 5 7) false with
  | SubmitResult.ok q => q
  | SubmitResult.err _ q => q
  | SubmitResult.blocked q => q

/-- C2 counterexample: reserving absolute index `k = 0` on a fresh queue of
capacity `N = 4`, the producer stores `cmd_slot = 0x80000000` (high bit 1),
whereas the claimed formula `(k & 0x7fffffff) | (((k / N) mod 2) << 31)`
gives 0 (high bit `(0 / 4) mod 2 = 0`).  The stamped high bit is the
negation of `(k / N) mod 2`, not `(k / N) mod 2` itself. -/
theorem submit_stamp_counterexample :
    ((freshQueue Nat 2 16 0).submit (QueueEntry.new 5 7) false = SubmitResult.ok c2After) ∧
    (c2After.buf 0).cmd_slot = 0x80000000 ∧
    (0 &&& 0x7fffffff) ||| (((0 / 4) % 2) <<< 31) = 0 ∧
    (0x80000000 : Nat) ≠ 0 :=
  ⟨rfl, rfl, by decide, by decide⟩

/-- C2 (amended): after reserving the head counter value `k`, the producer
stores into the slot at `(k & 0x7fffffff) & (N-1)` the control word
`(k & 0x7fffffff) | ((1 - (((k & 0x7fffffff) / N) mod 2)) << 31)`: the
stamped high bit is the complement of `((k & 0x7fffffff) / N) mod 2` (and the
division uses the masked index, not the absolute one). -/
theorem submit_stamp_value (T : Type) (q q' : RawQueue T) (item : QueueEntry T) (nb : Bool)
    (hl : q.hdr.l2len < 32)
    (hs : q.submit item nb = SubmitResult.ok q') :
    (q'.buf ((q.hdr.head &&& 0x7fffffff) &&& (q.hdr.len - 1))).cmd_slot
      = (q.hdr.head &&& 0x7fffffff)
        ||| ((1 - ((q.hdr.head &&& 0x7fffffff) / q.hdr.len) % 2) <<< 31) := by
  unfold RawQueue.submit at hs
  cases hr : q.hdr.reserve_slot nb with
  | err e hdr => rw [hr] at hs; cases hs
  | blocked hdr => rw [hr] at hs; cases hs
  | ok h hdr =>
    rw [hr] at hs
    injection hs with h2
    obtain ⟨hh, hhdr, -⟩ := reserve_slot_ok_inv q.hdr nb h hdr hr
    subst hh hhdr
    rw [← h2]
    have hlen : ({ q.hdr with head := (q.hdr.head + 1) % 0x100000000 } : RawQueueHdr).len
        = q.hdr.len := rfl
    simp only [hlen, if_pos rfl]
    have hturn : ({ q.hdr with head := (q.hdr.head + 1) % 0x100000000 } : RawQueueHdr).get_turn
        (q.hdr.head &&& 0x7fffffff)
        = decide (((q.hdr.head &&& 0x7fffffff) / q.hdr.len) % 2 = 0) := by
      unfold RawQueueHdr.get_turn
      rw [show ({ q.hdr with head := (q.hdr.head + 1) % 0x100000000 } : RawQueueHdr).len
        = q.hdr.len from rfl, len_mod_u32 q.hdr hl]
    rw [hturn]
    rcases Nat.mod_two_eq_zero_or_one ((q.hdr.head &&& 0x7fffffff) / q.hdr.len) with h0 | h0
    · rw [h0]
      simp
    · rw [h0]
      simp [Nat.zero_shiftLeft]

/-- Witness for C2 (amended) on the first submit to a fresh queue: slot 0
receives control word `0 ||| (1 <<< 31)`. -/
theorem submit_stamp_value_witness :
    ((2 : Nat) < 32 ∧
      (freshQueue Nat 2 16 0).submit (QueueEntry.new 5 7) false = SubmitResult.ok c2After) ∧
    (c2After.buf (((freshQueue Nat 2 16 0).hdr.head &&& 0x7fffffff)
        &&& ((freshQueue Nat 2 16 0).hdr.len - 1))).cmd_slot
      = ((freshQueue Nat 2 16 0).hdr.head &&& 0x7fffffff)
        ||| ((1 - (((freshQueue Nat 2 16 0).hdr.head &&& 0x7fffffff)
            / (freshQueue Nat 2 16 0).hdr.len) % 2) <<< 31) :=
  ⟨⟨by decide, rfl⟩,
    submit_stamp_value Nat (freshQueue Nat 2 16 0) c2After (QueueEntry.new 5 7) false
      (by decide) rfl⟩

/-! ## Claim C9: a successful receive does not modify the slot -/

/-- C9: every successful `receive` copies the entry at the tail slot out by
value without modifying the buffer — in particular the slot's `cmd_slot`,
`info` and `data` are identical before and after — and the only header field
that changes is `tail`. -/
theorem receive_ok_frame (T : Type) (q q' : RawQueue T) (e : QueueEntry T) (nb : Bool)
    (hs : q.receive nb = ReceiveResult.ok e q') :
    q'.buf = q.buf ∧
    e = q.buf ((q.hdr.tail &&& 0x7fffffff) &&& (q.hdr.len - 1)) ∧
    q'.hdr.head = q.hdr.head ∧ q'.hdr.bell = q.hdr.bell ∧
    q'.hdr.waiters = q.hdr.waiters ∧ q'.hdr.l2len = q.hdr.l2len ∧
    q'.hdr.stride = q.hdr.stride ∧
    q'.hdr.tail = ((q.hdr.tail + 1) % 0x10000000000000000) &&& 0x7fffffff := by
  unfold RawQueue.receive at hs
  cases hr : q.hdr.get_next_ready nb q.buf with
  | err e2 hdr => rw [hr] at hs; cases hs
  | blocked hdr => rw [hr] at hs; cases hs
  | ok t hdr =>
    rw [hr] at hs
    injection hs with h1 h2
    obtain ⟨ht, hhdr⟩ := get_next_ready_ok_inv q.hdr nb q.buf t hdr hr
    subst ht hhdr
    rw [← h2]
    exact ⟨rfl, h1.symm, rfl, rfl, rfl, rfl, rfl, rfl⟩

/-- The queue `c2After` (fresh capacity-4 queue after one submit) received
from: the resulting entry and state. -/
def c9Received : QueueEntry Nat × RawQueue Nat :=
  match c2After.receive false with
  | ReceiveResult.ok e q => (e, q)
  | ReceiveResult.err _ q => (QueueEntry.new 0 0, q)
  | ReceiveResult.blocked q => (QueueEntry.new 0 0, q)

/-- Witness for C9: receiving the single published entry of `c2After`. -/
theorem receive_ok_frame_witness :
    (c2After.receive false = ReceiveResult.ok c9Received.1 c9Received.2) ∧
    (c9Received.2.buf = c2After.buf ∧
      c9Received.1 = c2After.buf ((c2After.hdr.tail &&& 0x7fffffff) &&& (c2After.hdr.len - 1)) ∧
      c9Received.2.hdr.head = c2After.hdr.head ∧ c9Received.2.hdr.bell = c2After.hdr.bell ∧
      c9Received.2.hdr.waiters = c2After.hdr.waiters ∧
      c9Received.2.hdr.l2len = c2After.hdr.l2len ∧
      c9Received.2.hdr.stride = c2After.hdr.stride ∧
      c9Received.2.hdr.tail = ((c2After.hdr.tail + 1) % 0x10000000000000000) &&& 0x7fffffff) :=
  ⟨rfl, receive_ok_frame Nat c2After c9Received.2 c9Received.1 false rfl⟩

/-! ## Claim C4: stamp polarity and acceptance polarity are mirror images -/

/-- C4: for every absolute position `k` (below `2^31`, the range of masked
indices), a slot whose `cmd_slot` was just stamped by the producer for
position `k` — the value stored by `submit`, built from `get_turn` —
satisfies `is_turn k slot = true`, while the same slot still carrying the
previous revolution's stamp (for position `k - N`), or the initial zero for
the first revolution, satisfies `is_turn k slot = false`. -/
theorem stamp_accept_mirror (T : Type) (q : RawQueueHdr) (k i1 i2 : Nat) (d1 d2 : T)
    (hl : q.l2len < 32) (hk : k < 0x80000000) :
    q.is_turn k
      (⟨(k &&& 0x7fffffff) |||
          (if q.get_turn (k &&& 0x7fffffff) then 1 <<< 31 else 0), i1, d1⟩ : QueueEntry T)
      = true ∧
    q.is_turn k
      (if q.len ≤ k then
        (⟨((k - q.len) &&& 0x7fffffff) |||
            (if q.get_turn ((k - q.len) &&& 0x7fffffff) then 1 <<< 31 else 0),
          i2, d2⟩ : QueueEntry T)
      else (⟨0, i2, d2⟩ : QueueEntry T)) = false := by
  have hmask : k &&& 0x7fffffff = k := and_mask31_of_lt hk
  have hlen := len_mod_u32 q hl
  constructor
  · simp only [RawQueueHdr.is_turn, RawQueueHdr.get_turn, hmask, hlen, stamp_shiftr hk]
    rcases Nat.mod_two_eq_zero_or_one (k / q.len) with h0 | h0 <;> simp [h0]
  · by_cases hge : q.len ≤ k
    · rw [if_pos hge]
      have hk' : k - q.len < 0x80000000 := lt_of_le_of_lt (Nat.sub_le _ _) hk
      have hmask' : (k - q.len) &&& 0x7fffffff = k - q.len := and_mask31_of_lt hk'
      have hdiv : k / q.len = (k - q.len) / q.len + 1 := by
        rcases Nat.exists_eq_add_of_le hge with ⟨m, hm⟩
        subst hm
        rw [Nat.add_sub_cancel_left, Nat.add_comm, Nat.add_div_right _ (len_pos q)]
      simp only [RawQueueHdr.is_turn, RawQueueHdr.get_turn, hmask', hlen, stamp_shiftr hk']
      rw [hdiv]
      rcases Nat.mod_two_eq_zero_or_one ((k - q.len) / q.len) with h0 | h0
      · have h2 : ((k - q.len) / q.len + 1) % 2 = 1 := by omega
        simp [h0, h2]
      · have h2 : ((k - q.len) / q.len + 1) % 2 = 0 := by omega
        simp [h0, h2]
    · rw [if_neg hge]
      have hdiv : k / q.len = 0 := Nat.div_eq_of_lt (Nat.lt_of_not_le hge)
      simp [RawQueueHdr.is_turn, hdiv]

/-- Witness for C4 at capacity 4 and position `k = 5` (second revolution). -/
theorem stamp_accept_mirror_witness :
    ((2 : Nat) < 32 ∧ (5 : Nat) < 0x80000000) ∧
    ((RawQueueHdr.new 2 16).is_turn 5
        (⟨(5 &&& 0x7fffffff) |||
            (if (RawQueueHdr.new 2 16).get_turn (5 &&& 0x7fffffff) then 1 <<< 31 else 0),
          1, (3 : Nat)⟩ : QueueEntry Nat) = true ∧
      (RawQueueHdr.new 2 16).is_turn 5
        (if (RawQueueHdr.new 2 16).len ≤ 5 then
          (⟨((5 - (RawQueueHdr.new 2 16).len) &&& 0x7fffffff) |||
              (if (RawQueueHdr.new 2 16).get_turn
                  ((5 - (RawQueueHdr.new 2 16).len) &&& 0x7fffffff) then 1 <<< 31 else 0),
            2, (4 : Nat)⟩ : QueueEntry Nat)
        else (⟨0, 2, (4 : Nat)⟩ : QueueEntry Nat)) = false) :=
  ⟨⟨by decide, by decide⟩,
    stamp_accept_mirror Nat (RawQueueHdr.new 2 16) 5 1 2 3 4 (by decide) (by decide)⟩

/-! ## Claim C7: backpressure after N submits -/

/-- Iterated blocking submits: `subRun info data q0 i` is the state after the
first `i` submits of `QueueEntry::new(info j, data j)` (no flags), or `none`
if any of them failed to return `Ok`. -/
def subRun {T : Type} (info : Nat → Nat) (data : Nat → T) (q0 : RawQueue T) :
    Nat → Option (RawQueue T)
  | 0 => some q0
  | i + 1 =>
    match subRun info data q0 i with
    | some q =>
      match q.submit (QueueEntry.new (info i) (data i)) false with
      | SubmitResult.ok q' => some q'
      | _ => none
    | none => none

theorem subRun_state (T : Type) (l2len stride : Nat) (hl : l2len < 31) (d : T)
    (info : Nat → Nat) (data : Nat → T) :
    ∀ i, i ≤ 2 ^ l2len →
      ∃ q : RawQueue T,
        subRun info data (freshQueue T l2len stride d) i = some q ∧
        q.hdr.l2len = l2len ∧ q.hdr.stride = stride ∧ q.hdr.head = i ∧
        q.hdr.waiters = 0 ∧ q.hdr.bell = i ∧ q.hdr.tail = 0 := by
  intro i
  induction i with
  | zero => exact fun _ => ⟨freshQueue T l2len stride d, rfl, rfl, rfl, rfl, rfl, rfl, rfl⟩
  | succ i ih =>
    intro hle
    obtain ⟨q, hrun, h1, h2, h3, h4, h5, h6⟩ := ih (Nat.le_of_succ_le hle)
    have hiN : i < 2 ^ l2len := Nat.lt_of_succ_le hle
    have h30 : (2 : Nat) ^ l2len ≤ 2 ^ 30 := Nat.pow_le_pow_right (by norm_num) (by omega)
    have h30v : (2 : Nat) ^ 30 = 0x40000000 := by norm_num
    have hfull : q.hdr.is_full q.hdr.head q.hdr.tail = false := by
      unfold RawQueueHdr.is_full
      rw [decide_eq_false_iff_not, h3, h6, len_eq_two_pow, h1]
      simp only [and_mask31]
      omega
    have hsub := submit_ok_state T q (QueueEntry.new (info i) (data i)) false hfull
    obtain ⟨q', hq'⟩ : ∃ q', q.submit (QueueEntry.new (info i) (data i)) false
        = SubmitResult.ok q' := ⟨_, hsub⟩
    have hx := hq'.symm.trans hsub
    injection hx with hx
    refine ⟨q', ?_, ?_, ?_, ?_, ?_, ?_, ?_⟩
    · simp only [subRun, hrun, hq']
    · rw [hx]; exact h1
    · rw [hx]; exact h2
    · rw [hx]
      show (q.hdr.head + 1) % 0x100000000 = i + 1
      rw [h3]
      omega
    · rw [hx]; exact h4
    · rw [hx]
      show (q.hdr.bell + 1) % 0x10000000000000000 = i + 1
      rw [h5]
      omega
    · rw [hx]; exact h6

/-- C7: starting from a fresh queue of capacity `N = 2^l2len` (with
`l2len < 31` so that the capacity is representable in the 31-bit counter
space), after `N` successful blocking submits and zero receives, a further
submit with `NON_BLOCK` returns `Err(SubmissionError::WouldBlock)`. -/
theorem submit_backpressure (T : Type) (l2len stride : Nat) (hl : l2len < 31) (d : T)
    (info : Nat → Nat) (data : Nat → T) (item : QueueEntry T) :
    ∃ q q', subRun info data (freshQueue T l2len stride d) (2 ^ l2len) = some q ∧
      q.submit item true = SubmitResult.err SubmissionError.WouldBlock q' := by
  obtain ⟨q, hrun, h1, h2, h3, h4, h5, h6⟩ :=
    subRun_state T l2len stride hl d info data (2 ^ l2len) (le_refl _)
  have h30 : (2 : Nat) ^ l2len ≤ 2 ^ 30 := Nat.pow_le_pow_right (by norm_num) (by omega)
  have h30v : (2 : Nat) ^ 30 = 0x40000000 := by norm_num
  have hfull : q.hdr.is_full q.hdr.head q.hdr.tail = true := by
    unfold RawQueueHdr.is_full
    rw [decide_eq_true_eq, h3, h6, len_eq_two_pow, h1]
    simp only [and_mask31]
    omega
  exact ⟨q, _, hrun, submit_full_nonblock T q item hfull⟩

/-- Witness for C7 at capacity 4 (`l2len = 2`), mirroring the `it_fills`
test: four submits succeed, the fifth non-blocking submit would block. -/
theorem submit_backpressure_witness :
    ((2 : Nat) < 31) ∧
    (∃ q q', subRun (fun j => j) (fun j => j) (freshQueue Nat 2 16 0) (2 ^ 2) = some q ∧
      q.submit (QueueEntry.new 9 9) true = SubmitResult.err SubmissionError.WouldBlock q') :=
  ⟨by decide,
    submit_backpressure Nat 2 16 (by decide) 0 (fun j => j) (fun j => j) (QueueEntry.new 9 9)⟩

/-! ## Claim C1: alternating submit/receive round-trip fidelity -/

/-- One alternating round: submit `QueueEntry::new(a, x)` (no flags), then
receive (no flags); `none` if either operation failed to return `Ok`. -/
def altStep {T : Type} (q : RawQueue T) (a : Nat) (x : T) :
    Option (QueueEntry T × RawQueue T) :=
  match q.submit (QueueEntry.new a x) false with
  | SubmitResult.ok q' =>
    match q'.receive false with
    | ReceiveResult.ok e q'' => some (e, q'')
    | _ => none
  | _ => none

/-- The queue state after `i` alternating submit/receive rounds with tags
`info j` and payloads `data j`. -/
def altRun {T : Type} (info : Nat → Nat) (data : Nat → T) (q0 : RawQueue T) :
    Nat → Option (RawQueue T)
  | 0 => some q0
  | i + 1 =>
    match altRun info data q0 i with
    | some q => Option.map Prod.snd (altStep q (info i) (data i))
    | none => none

theorem alt_step_ok (T : Type) (i : Nat) (q : RawQueue T) (hl : q.hdr.l2len < 32)
    (hhead : q.hdr.head = i % 0x100000000)
    (hbell : q.hdr.bell = i % 0x10000000000000000)
    (htail : q.hdr.tail = i % 0x80000000)
    (a : Nat) (x : T) :
    ∃ q1 e q2,
      q.submit (QueueEntry.new a x) false = SubmitResult.ok q1 ∧
      q1.receive false = ReceiveResult.ok e q2 ∧
      e.info = a ∧ e.data = x ∧
      q2.hdr.l2len = q.hdr.l2len ∧
      q2.hdr.head = (i + 1) % 0x100000000 ∧
      q2.hdr.bell = (i + 1) % 0x10000000000000000 ∧
      q2.hdr.tail = (i + 1) % 0x80000000 := by
  have hdvd : (0x80000000 : Nat) ∣ 0x100000000 := ⟨2, by norm_num⟩
  have hpos : 0 < 2 ^ q.hdr.l2len := Nat.pos_pow_of_pos _ (by norm_num)
  have hfull : q.hdr.is_full q.hdr.head q.hdr.tail = false := by
    unfold RawQueueHdr.is_full
    rw [decide_eq_false_iff_not, hhead, htail, len_eq_two_pow]
    simp only [and_mask31]
    rw [Nat.mod_mod_of_dvd i hdvd, Nat.mod_mod_of_dvd i (dvd_refl 0x80000000)]
    omega
  have hsub := submit_ok_state T q (QueueEntry.new a x) false hfull
  obtain ⟨q1, hq1⟩ : ∃ q1, q.submit (QueueEntry.new a x) false = SubmitResult.ok q1 :=
    ⟨_, hsub⟩
  have hx1 := hq1.symm.trans hsub
  injection hx1 with hx1
  have h1head : q1.hdr.head = (i + 1) % 0x100000000 := by
    rw [hx1]
    show (q.hdr.head + 1) % 0x100000000 = (i + 1) % 0x100000000
    rw [hhead, Nat.mod_add_mod]
  have h1bell : q1.hdr.bell = (i + 1) % 0x10000000000000000 := by
    rw [hx1]
    show (q.hdr.bell + 1) % 0x10000000000000000 = (i + 1) % 0x10000000000000000
    rw [hbell, Nat.mod_add_mod]
  have h1tail : q1.hdr.tail = i % 0x80000000 := by rw [hx1]; exact htail
  have h1len : q1.hdr.l2len = q.hdr.l2len := by rw [hx1]
  have hlen1 : q1.hdr.len = q.hdr.len := by rw [hx1]; rfl
  have h1buf : q1.buf = fun j =>
      if j = ((q.hdr.head &&& 0x7fffffff) &&& (q.hdr.len - 1))
      then (⟨(q.hdr.head &&& 0x7fffffff) |||
          (if q.hdr.get_turn (q.hdr.head &&& 0x7fffffff) then 1 <<< 31 else 0), a, x⟩ :
        QueueEntry T)
      else q.buf j := by
    rw [hx1]
    rfl
  have hmv : q.hdr.head &&& 0x7fffffff = i % 0x80000000 := by
    rw [hhead, and_mask31, Nat.mod_mod_of_dvd i hdvd]
  have htv : q1.hdr.tail &&& 0x7fffffff = i % 0x80000000 := by
    rw [h1tail, and_mask31, Nat.mod_mod_of_dvd i (dvd_refl _)]
  have hidx : (q1.hdr.tail &&& 0x7fffffff) &&& (q1.hdr.len - 1)
      = (q.hdr.head &&& 0x7fffffff) &&& (q.hdr.len - 1) := by
    rw [hlen1, htv, hmv]
  have hne : q1.hdr.is_empty q1.hdr.bell (q1.hdr.tail &&& 0x7fffffff) = false := by
    unfold RawQueueHdr.is_empty
    rw [decide_eq_false_iff_not, h1bell, h1tail]
    simp only [and_mask31]
    omega
  have ht : q1.hdr.is_turn (q1.hdr.tail &&& 0x7fffffff)
      (q1.buf ((q1.hdr.tail &&& 0x7fffffff) &&& (q1.hdr.len - 1))) = true := by
    rw [hidx, h1buf]
    simp only [eq_self_iff_true, if_true]
    unfold RawQueueHdr.is_turn
    rw [htv, hlen1, len_eq_two_pow, hmv]
    rw [stamp_shiftr (Nat.mod_lt i (by norm_num))]
    unfold RawQueueHdr.get_turn
    rw [len_mod_u32 q.hdr hl, len_eq_two_pow]
    rcases Nat.mod_two_eq_zero_or_one ((i % 0x80000000) / 2 ^ q.hdr.l2len) with h0 | h0 <;>
      simp [h0]
  have hrecv := receive_ok_state T q1 false hne ht
  refine ⟨q1, _, _, hq1, hrecv, ?_, ?_, ?_, ?_, ?_, ?_⟩
  · rw [hidx, h1buf]
    simp only [eq_self_iff_true, if_true]
  · rw [hidx, h1buf]
    simp only [eq_self_iff_true, if_true]
  · exact h1len
  · exact h1head
  · exact h1bell
  · show ((q1.hdr.tail + 1) % 0x10000000000000000) &&& 0x7fffffff = (i + 1) % 0x80000000
    rw [h1tail, and_mask31]
    omega

theorem altRun_state (T : Type) (l2len stride : Nat) (hl : l2len < 32) (d : T)
    (info : Nat → Nat) (data : Nat → T) :
    ∀ i, ∃ q : RawQueue T,
      altRun info data (freshQueue T l2len stride d) i = some q ∧
      q.hdr.l2len = l2len ∧ q.hdr.head = i % 0x100000000 ∧
      q.hdr.bell = i % 0x10000000000000000 ∧ q.hdr.tail = i % 0x80000000 := by
  intro i
  induction i with
  | zero => exact ⟨freshQueue T l2len stride d, rfl, rfl, rfl, rfl, rfl⟩
  | succ i ih =>
    obtain ⟨q, hrun, h1, h2, h3, h4⟩ := ih
    obtain ⟨q1, e, q2, hsub, hrecv, -, -, g1, g2, g3, g4⟩ :=
      alt_step_ok T i q (by rw [h1]; exact hl) h2 h3 h4 (info i) (data i)
    refine ⟨q2, ?_, g1.trans h1, g2, g3, g4⟩
    simp only [altRun, hrun, altStep, hsub, hrecv, Option.map]

/-- C1: starting from a freshly created queue of capacity `2^l2len`
(`l2len < 32`), for every round count — including counts whose absolute
positions exceed twice the capacity, so the turn bit alternates across
revolutions — alternating `submit(QueueEntry::new(info i, data i))` and
`receive` with no flags always succeeds on both sides, and the `i`-th receive
returns an entry whose `info` is `info i` and whose `data` is `data i`. -/
theorem alternating_roundtrip (T : Type) (l2len stride : Nat) (hl : l2len < 32)
    (d : T) (info : Nat → Nat) (data : Nat → T) (i : Nat) :
    ∃ q q' e q'',
      altRun info data (freshQueue T l2len stride d) i = some q ∧
      q.submit (QueueEntry.new (info i) (data i)) false = SubmitResult.ok q' ∧
      q'.receive false = ReceiveResult.ok e q'' ∧
      e.info = info i ∧ e.data = data i := by
  obtain ⟨q, hrun, h1, h2, h3, h4⟩ := altRun_state T l2len stride hl d info data i
  obtain ⟨q1, e, q2, hsub, hrecv, hinfo, hdata, -, -, -, -⟩ :=
    alt_step_ok T i q (by rw [h1]; exact hl) h2 h3 h4 (info i) (data i)
  exact ⟨q, q1, e, q2, hrun, hsub, hrecv, hinfo, hdata⟩

/-- Witness for C1 at capacity 4, round `i = 9` (third revolution, beyond
`2N` rounds), mirroring the `it_transmits` test shape `(info i, i * 10)`. -/
theorem alternating_roundtrip_witness :
    ((2 : Nat) < 32) ∧
    (∃ q q' e q'',
      altRun (fun j => j) (fun j => j * 10) (freshQueue Nat 2 16 0) 9 = some q ∧
      q.submit (QueueEntry.new 9 90) false = SubmitResult.ok q' ∧
      q'.receive false = ReceiveResult.ok e q'' ∧
      e.info = 9 ∧ e.data = 90) :=
  ⟨by decide, alternating_roundtrip Nat 2 16 (by decide) 0 (fun j => j) (fun j => j * 10) 9⟩

end TwizzlerQueueRaw
